import Mathlib

/-!
Shallow embedding of `src/streamlit_happytreefriends_app.py` (a Streamlit
plant-care chat app) and proofs about its session/conversation logic.

The script has no named functions; the embedding names each block after the
role it plays in the app:
* `encodeImage` / `dataUrlOf` — the image-encoding block (lines 128-134);
* `translate` — the history-translation loop (lines 136-147);
* `extractAnswer` — the response extraction (lines 153-156);
* `runTurn` — the prompt-handling block (lines 116-166);
* `ensureAgent` — the agent get-or-create block (lines 48-92);
* `runScript` — one top-to-bottom run of the script over the session state.

External effects are parameters: agent construction is a
`String → Except String Agent` (the exception carries its description) and
agent invocation is a `List ModelMsg → Except String (Option (List String))`
(`none` models a response dict without a "messages" key; the list holds the
`.content` of each response message).
-/

namespace HappyTree

/-- Role tag of a transcript entry; the script only ever stores
"user" and "assistant" (lines 118 and 166). -/
inductive Role where
  | user
  | assistant
deriving DecidableEq, Repr

/-- One element of `st.session_state.messages`:
a dict `{"role": ..., "content": ...}`. -/
structure Entry where
  role : Role
  content : String
deriving DecidableEq, Repr

/-- The file-upload widget's value: a name and raw bytes
(`uploaded_image.name`, `uploaded_image.getvalue()`). Bytes are naturals;
only their values mod 256 matter to base64. -/
structure UploadedFile where
  name : String
  bytes : List Nat
deriving DecidableEq, Repr

/-- The standard base64 alphabet. -/
def base64Chars : List Char :=
  "ABCDEFGHIJKLMNOPQRSTUVWXYZabcdefghijklmnopqrstuvwxyz0123456789+/".toList

/-- Character for a 6-bit group. -/
def b64c (n : Nat) : Char := base64Chars.getD n 'A'

/-- `base64.b64encode(bytes).decode("utf-8")` (line 131): standard base64
with '=' padding. -/
def base64Encode : List Nat → String
  | [] => ""
  | [a] =>
      String.mk [b64c (a / 4 % 64), b64c (a % 4 * 16), '=', '=']
  | [a, b] =>
      String.mk [b64c (a / 4 % 64), b64c (a % 4 * 16 + b / 16 % 16),
        b64c (b % 16 * 4), '=']
  | a :: b :: c :: rest =>
      String.mk [b64c (a / 4 % 64), b64c (a % 4 * 16 + b / 16 % 16),
        b64c (b % 16 * 4 + c / 64 % 4), b64c (c % 64)] ++ base64Encode rest

/-- Characters after the last '.' of a filename that has at least one
non-dot character somewhere before it; `none` otherwise. This is the
extension rule of `posixpath.splitext`, which `mimetypes.guess_type` uses:
a name of leading dots only before its last dot, such as ".jpg" or "..jpg",
has no extension. The flag records whether a non-dot character occurred
before the current position. -/
def extAfterLastDot : Bool → List Char → Option (List Char)
  | _, [] => none
  | seenNonDot, c :: cs =>
      match extAfterLastDot (seenNonDot || (c != '.')) cs with
      | some e => some e
      | none => if c = '.' ∧ seenNonDot then some cs else none

/-- Lower-cased extension of a filename ("" when there is none). -/
def extOf (name : String) : String :=
  match extAfterLastDot false name.toList with
  | some e => String.mk (e.map Char.toLower)
  | none => ""

/-- `mimetypes.guess_type(uploaded_image.name)` (line 130), restricted to the
extensions the upload widget admits (`type=["jpg", "jpeg", "png"]`, line 34);
any other extension guesses `none`, as the Python table would for an unknown
suffix. -/
def guessType (name : String) : Option String :=
  if extOf name = "jpg" ∨ extOf name = "jpeg" then some "image/jpeg"
  else if extOf name = "png" then some "image/png"
  else none

/-- How Python's f-string renders the guessed type: the string itself, or
"None" when the guess is absent. -/
def mimeStr : Option String → String
  | some m => m
  | none => "None"

/-- `f"data:{mime_type};base64,{base64_img}"` (line 132). -/
def dataUrlOf (f : UploadedFile) : String :=
  "data:" ++ mimeStr (guessType f.name) ++ ";base64," ++ base64Encode f.bytes

/-- Lines 128-134: `data_url` is the data URL of the upload when one is
present, and `None` otherwise. -/
def encodeImage : Option UploadedFile → Option String
  | none => none
  | some f => some (dataUrlOf f)

/-- A message handed to the agent: `HumanMessage(content=text)`,
`HumanMessage(content=[text part, image_url part])`, or
`AIMessage(content=text)`. -/
inductive ModelMsg where
  | human (text : String)
  | humanWithImage (text : String) (dataUrl : String)
  | ai (text : String)
deriving DecidableEq, Repr

/-- Role carried by a translated message. -/
def ModelMsg.role : ModelMsg → Role
  | .human _ => .user
  | .humanWithImage _ _ => .user
  | .ai _ => .assistant

/-- Text carried by a translated message. -/
def ModelMsg.text : ModelMsg → String
  | .human t => t
  | .humanWithImage t _ => t
  | .ai t => t

/-- Whether a translated message carries the image attachment. -/
def ModelMsg.hasImage : ModelMsg → Bool
  | .humanWithImage _ _ => true
  | _ => false

/-- Body of the translation loop (lines 137-147). The guard mirrors
`uploaded_image is not None and msg["content"] == prompt and data_url`:
the first conjunct is `dataUrl = some url` (the code sets `data_url` exactly
when an upload exists), the last is Python truthiness of the string. -/
def translateEntry (prompt : String) (dataUrl : Option String) (e : Entry) :
    ModelMsg :=
  match e.role with
  | Role.assistant => ModelMsg.ai e.content
  | Role.user =>
      match dataUrl with
      | none => ModelMsg.human e.content
      | some url =>
          if e.content = prompt ∧ url ≠ "" then
            ModelMsg.humanWithImage e.content url
          else ModelMsg.human e.content

/-- The translation loop (lines 136-147): every transcript entry is mapped,
in order, to one agent message. -/
def translate (transcript : List Entry) (prompt : String)
    (dataUrl : Option String) : List ModelMsg :=
  transcript.map (translateEntry prompt dataUrl)

/-- The fixed fallback answer of line 156. -/
def fallbackAnswer : String := "I'm sorry, I couldn't generate a response."

/-- Lines 153-156: `response["messages"][-1].content` when the key exists and
the list is non-empty, else the fallback. The argument is `none` when the
response lacks a "messages" key. -/
def extractAnswer : Option (List String) → String
  | some ms =>
      match ms.getLast? with
      | some c => c
      | none => fallbackAnswer
  | none => fallbackAnswer

/-- The message list sent to the agent during a turn: the transcript after
the user entry was appended (line 118), translated against the current
prompt and upload (lines 127-147). -/
def turnMessages (prompt : String) (upload : Option UploadedFile)
    (msgs : List Entry) : List ModelMsg :=
  translate (msgs ++ [⟨Role.user, prompt⟩]) prompt (encodeImage upload)

/-- The assistant text of a turn: extraction on success (lines 150-156),
`f"An error occurred: {e}"` when invocation raises (lines 158-160). -/
def turnAnswer (prompt : String) (upload : Option UploadedFile)
    (invoke : List ModelMsg → Except String (Option (List String)))
    (msgs : List Entry) : String :=
  match invoke (turnMessages prompt upload msgs) with
  | Except.ok r => extractAnswer r
  | Except.error e => "An error occurred: " ++ e

/-- The prompt-handling block (lines 116-166): append the user entry, get the
assistant text, append the assistant entry. -/
def runTurn (prompt : String) (upload : Option UploadedFile)
    (invoke : List ModelMsg → Except String (Option (List String)))
    (msgs : List Entry) : List Entry :=
  (msgs ++ [⟨Role.user, prompt⟩])
    ++ [⟨Role.assistant, turnAnswer prompt upload invoke msgs⟩]

/-- The agent object built on lines 51-83: a fixed model bound to the
credential. The fixed temperature and system prompt play no role in any
claim and are omitted from the state. -/
structure Agent where
  modelName : String
  googleApiKey : String
deriving DecidableEq, Repr

/-- The parts of `st.session_state` the script reads and writes:
`agent`, `_last_key`, `messages`. `none` models an absent key
(`pop` removes a key; `getattr(..., None)` defaults an absent one). -/
structure AppState where
  agent : Option Agent
  lastKey : Option String
  messages : Option (List Entry)
deriving DecidableEq, Repr

/-- The `st.info` text of the credential gate (line 18). -/
def gateMsg : String :=
  "Please add your Google AI API key in the sidebar to start chatting."

/-- The `st.error` text shown when agent construction fails (line 91). -/
def buildErrMsg (e : String) : String :=
  "Invalid API Key or configuration error: " ++ e

/-- The agent get-or-create block (lines 48-92). Rebuild is attempted when no
agent exists or `_last_key` differs from the key; on success the agent and
`_last_key` are stored and `messages` is popped; on exception nothing is
written and the script stops (the `some errText` outcome). -/
def ensureAgent (k : String) (construct : String → Except String Agent)
    (s : AppState) : AppState × Option String :=
  if s.agent = none ∨ s.lastKey ≠ some k then
    match construct k with
    | Except.ok a => ({ agent := some a, lastKey := some k, messages := none }, none)
    | Except.error e => (s, some (buildErrMsg e))
  else (s, none)

/-- Lines 97-98: initialize `messages` to `[]` when the key is absent. -/
def initMessages (s : AppState) : AppState :=
  match s.messages with
  | some _ => s
  | none => { s with messages := some [] }

/-- How a script run ends: `st.stop()` with an on-screen text, or the end of
the file. -/
inductive Outcome where
  | halted (info : String)
  | finished
deriving DecidableEq, Repr

/-- One top-to-bottom run of the script: credential gate (lines 14-19),
agent get-or-create (48-92), history init (97-98), and — when `st.chat_input`
returned a non-empty prompt — one turn (116-166). `key` is
`os.getenv("GOOGLE_API_KEY")`; `prompt = none` and `prompt = some ""` are
both falsy at line 116. -/
def runScript (key : Option String) (construct : String → Except String Agent)
    (prompt : Option String) (upload : Option UploadedFile)
    (invoke : List ModelMsg → Except String (Option (List String)))
    (s : AppState) : AppState × Outcome :=
  match key with
  | none => (s, Outcome.halted gateMsg)
  | some k =>
      if k = "" then (s, Outcome.halted gateMsg)
      else
        match ensureAgent k construct s with
        | (s1, some err) => (s1, Outcome.halted err)
        | (s1, none) =>
            let s2 := initMessages s1
            match prompt with
            | none => (s2, Outcome.finished)
            | some p =>
                if p = "" then (s2, Outcome.finished)
                else
                  ({ s2 with
                      messages := some (runTurn p upload invoke (s2.messages.getD [])) },
                    Outcome.finished)

/-- Transcripts reachable by completed turns from the empty transcript (the
state after a fresh start or a credential-change clear). -/
inductive ReachableTranscript : List Entry → Prop where
  | nil : ReachableTranscript []
  | turn (p : String) (upload : Option UploadedFile)
      (invoke : List ModelMsg → Except String (Option (List String)))
      (t : List Entry) :
      ReachableTranscript t → ReachableTranscript (runTurn p upload invoke t)

/-- The strict user/assistant alternation pattern of length `2 * k`. -/
def altRoles : Nat → List Role
  | 0 => []
  | Nat.succ k => altRoles k ++ [Role.user, Role.assistant]

/-! ## Helper lemmas -/

lemma translateEntry_role (p : String) (durl : Option String) (e : Entry) :
    (translateEntry p durl e).role = e.role := by
  unfold translateEntry
  split <;> rename_i hr
  · rw [hr]; rfl
  · cases durl with
    | none => rw [hr]; rfl
    | some url =>
        dsimp only
        by_cases hc : e.content = p ∧ url ≠ ""
        · rw [if_pos hc, hr]; rfl
        · rw [if_neg hc, hr]; rfl

lemma translateEntry_text (p : String) (durl : Option String) (e : Entry) :
    (translateEntry p durl e).text = e.content := by
  unfold translateEntry
  split
  · rfl
  · cases durl with
    | none => rfl
    | some url =>
        dsimp only
        by_cases hc : e.content = p ∧ url ≠ ""
        · rw [if_pos hc]; rfl
        · rw [if_neg hc]; rfl

lemma dataUrlOf_ne_empty (f : UploadedFile) : dataUrlOf f ≠ "" := by
  intro h
  have h2 := congrArg String.length h
  rw [dataUrlOf, String.length_append, String.length_append,
    String.length_append] at h2
  have h5 : ("data:" : String).length = 5 := rfl
  have h0 : ("" : String).length = 0 := rfl
  omega

lemma translateEntry_hasImage (p url : String) (h : url ≠ "") (e : Entry) :
    (translateEntry p (some url) e).hasImage
      = decide (e.role = Role.user ∧ e.content = p) := by
  unfold translateEntry
  split <;> rename_i hr
  · simp [hr, ModelMsg.hasImage]
  · dsimp only
    by_cases hc : e.content = p
    · rw [if_pos ⟨hc, h⟩]; simp [hr, hc, ModelMsg.hasImage]
    · rw [if_neg (fun hand => hc hand.1)]; simp [hr, hc, ModelMsg.hasImage]

lemma altRoles_length (k : Nat) : (altRoles k).length = 2 * k := by
  induction k with
  | zero => rfl
  | succ n ih =>
      rw [altRoles, List.length_append, ih]
      simp only [List.length_cons, List.length_nil]
      omega

lemma reachable_roles (t : List Entry) (h : ReachableTranscript t) :
    ∃ k, t.map Entry.role = altRoles k := by
  induction h with
  | nil => exact ⟨0, rfl⟩
  | turn p upload invoke t ht ih =>
      obtain ⟨k, hk⟩ := ih
      refine ⟨k + 1, ?_⟩
      rw [runTurn, List.map_append, List.map_append, hk, List.append_assoc]
      rfl

lemma altRoles_eq_range (k : Nat) :
    altRoles k = (List.range (2 * k)).map
      (fun i => if i % 2 = 0 then Role.user else Role.assistant) := by
  induction k with
  | zero => rfl
  | succ n ih =>
      have harith : 2 * (n + 1) = 2 * n + 1 + 1 := by omega
      rw [altRoles, ih, harith, List.range_succ, List.range_succ,
        List.map_append, List.map_append]
      have h1 : 2 * n % 2 = 0 := by omega
      have h2 : ¬ (2 * n + 1) % 2 = 0 := by omega
      simp [h1, h2, List.append_assoc]

lemma altRoles_getElem (k i : Nat) (hi : i < (altRoles k).length) :
    (altRoles k)[i] = if i % 2 = 0 then Role.user else Role.assistant := by
  have hi2 : i < ((List.range (2 * k)).map
      (fun j => if j % 2 = 0 then Role.user else Role.assistant)).length := by
    rw [← altRoles_eq_range]
    exact hi
  have hi3 : i < 2 * k := by
    rw [List.length_map, List.length_range] at hi2
    exact hi2
  rw [List.getElem_of_eq (altRoles_eq_range k) hi, List.getElem_map,
    List.getElem_range]

/-! ## Claims -/

/-- C3: every reachable transcript (built from completed turns) has even
length and strictly alternating roles starting with "user": the entry at
each even index is a user entry and at each odd index an assistant entry;
moreover each completed turn appends exactly one user entry followed by
exactly one assistant entry. -/
theorem C3_alternation (t : List Entry) (h : ReachableTranscript t) :
    t.length % 2 = 0 ∧
    (∀ i (hi : i < t.length),
        (t.get ⟨i, hi⟩).role = if i % 2 = 0 then Role.user else Role.assistant) ∧
    (∀ p upload invoke, runTurn p upload invoke t
        = t ++ [⟨Role.user, p⟩, ⟨Role.assistant, turnAnswer p upload invoke t⟩]) := by
  obtain ⟨k, hk⟩ := reachable_roles t h
  have hlen : t.length = 2 * k := by
    have h2 := congrArg List.length hk
    rw [List.length_map, altRoles_length] at h2
    exact h2
  refine ⟨by omega, ?_, ?_⟩
  · intro i hi
    have hi2 : i < (t.map Entry.role).length := by
      rw [List.length_map]
      exact hi
    have h3 : (t.map Entry.role)[i] = (t.get ⟨i, hi⟩).role := by
      rw [List.get_eq_getElem]
      exact List.getElem_map Entry.role
    rw [← h3]
    have hi3 : i < (altRoles k).length := by
      rw [altRoles_length]
      omega
    rw [List.getElem_of_eq hk hi2]
    exact altRoles_getElem k i hi3
  · intro p upload invoke
    rw [runTurn, List.append_assoc]
    rfl

/-- C3 witness: the invariant evaluated on the transcript reached by one
completed (failing) turn from the empty transcript. -/
theorem C3_alternation_witness :
    (runTurn "Hi" none (fun _ => Except.error "boom") []).length % 2 = 0 ∧
    (∀ i (hi : i < (runTurn "Hi" none (fun _ => Except.error "boom") []).length),
        ((runTurn "Hi" none (fun _ => Except.error "boom") []).get ⟨i, hi⟩).role
          = if i % 2 = 0 then Role.user else Role.assistant) ∧
    (∀ p upload invoke,
        runTurn p upload invoke (runTurn "Hi" none (fun _ => Except.error "boom") [])
          = runTurn "Hi" none (fun _ => Except.error "boom") []
              ++ [⟨Role.user, p⟩,
                  ⟨Role.assistant,
                    turnAnswer p upload invoke
                      (runTurn "Hi" none (fun _ => Except.error "boom") [])⟩]) :=
  C3_alternation _
    (ReachableTranscript.turn "Hi" none (fun _ => Except.error "boom") []
      ReachableTranscript.nil)

/-- C1 counterexample: with the attachment present and a transcript holding
an earlier user entry whose text equals the current prompt, the translation
loop attaches the image to two messages, not at most one. -/
theorem C1_counterexample :
    ¬ ((translate [⟨Role.user, "hi"⟩, ⟨Role.assistant, "ok"⟩, ⟨Role.user, "hi"⟩]
          "hi" (some "data:image/png;base64,AAAA")).countP ModelMsg.hasImage ≤ 1) := by
  decide

/-- C1 (amended): the loop attaches the image to every user entry whose text
equals the just-submitted prompt — the count of image-carrying messages
equals the count of such entries — so it is at most one exactly when the
transcript holds at most one user entry with that text. -/
theorem C1_attachment_count (t : List Entry) (p url : String) (h : url ≠ "") :
    (translate t p (some url)).countP ModelMsg.hasImage
      = t.countP (fun e => decide (e.role = Role.user ∧ e.content = p)) := by
  induction t with
  | nil => rfl
  | cons e es ih =>
      rw [translate, List.map_cons, List.countP_cons, List.countP_cons,
        ← translate, ih, translateEntry_hasImage p url h e]

/-- C1 witness: the amended count identity evaluated on a transcript with two
user entries matching the prompt. -/
theorem C1_attachment_count_witness :
    (("data:x" : String) ≠ "") ∧
    (translate [⟨Role.user, "hi"⟩, ⟨Role.assistant, "ok"⟩, ⟨Role.user, "hi"⟩]
        "hi" (some "data:x")).countP ModelMsg.hasImage
      = ([⟨Role.user, "hi"⟩, ⟨Role.assistant, "ok"⟩, ⟨Role.user, "hi"⟩] : List Entry).countP
          (fun e => decide (e.role = Role.user ∧ e.content = "hi")) :=
  ⟨by decide,
    C1_attachment_count [⟨Role.user, "hi"⟩, ⟨Role.assistant, "ok"⟩, ⟨Role.user, "hi"⟩]
      "hi" "data:x" (by decide)⟩

/-- C10: whenever a turn is submitted while the upload widget still holds a
file — whether it was uploaded this turn or an earlier one — the translated
message for the current turn's user entry (the last message sent to the
agent) is multimodal: text plus the file's data URL. -/
theorem C10_current_upload_multimodal (msgs : List Entry) (p : String)
    (f : UploadedFile) :
    (turnMessages p (some f) msgs).getLast?
      = some (ModelMsg.humanWithImage p (dataUrlOf f)) := by
  have hne := dataUrlOf_ne_empty f
  simp [turnMessages, encodeImage, translate, List.map_append,
    List.getLast?_concat, translateEntry, hne]

/-- C2: when the stored credential differs from the current one and
construction succeeds, the get-or-create block rebuilds the agent, records
the new credential, and pops the transcript, so the transcript slot right
after construction and initialization — before any turn — is the empty
list. -/
theorem C2_credential_change_resets (s : AppState) (kPrev k : String)
    (a : Agent) (construct : String → Except String Agent)
    (hprev : s.lastKey = some kPrev) (hne : kPrev ≠ k)
    (hok : construct k = Except.ok a) :
    ensureAgent k construct s
      = ({ agent := some a, lastKey := some k, messages := none }, none) ∧
    (initMessages (ensureAgent k construct s).1).messages = some [] := by
  have hcond : s.agent = none ∨ s.lastKey ≠ some k := by
    right
    rw [hprev]
    intro hcontra
    exact hne (Option.some.inj hcontra)
  have h1 : ensureAgent k construct s
      = ({ agent := some a, lastKey := some k, messages := none }, none) := by
    rw [ensureAgent, if_pos hcond, hok]
  exact ⟨h1, by rw [h1]; rfl⟩

/-- C2 witness: a session keyed to credential X with a two-entry transcript,
rerun with credential Y. -/
theorem C2_credential_change_resets_witness :
    ((⟨some ⟨"gemini-2.5-flash", "X"⟩, some "X",
        some [⟨Role.user, "q"⟩, ⟨Role.assistant, "a"⟩]⟩ : AppState).lastKey
      = some "X") ∧
    (("X" : String) ≠ "Y") ∧
    ((fun key => (Except.ok ⟨"gemini-2.5-flash", key⟩ : Except String Agent)) "Y"
      = Except.ok (⟨"gemini-2.5-flash", "Y"⟩ : Agent)) ∧
    (ensureAgent "Y" (fun key => (Except.ok ⟨"gemini-2.5-flash", key⟩ : Except String Agent))
        ⟨some ⟨"gemini-2.5-flash", "X"⟩, some "X",
          some [⟨Role.user, "q"⟩, ⟨Role.assistant, "a"⟩]⟩
      = ({ agent := some ⟨"gemini-2.5-flash", "Y"⟩, lastKey := some "Y",
            messages := none }, none) ∧
     (initMessages (ensureAgent "Y"
        (fun key => (Except.ok ⟨"gemini-2.5-flash", key⟩ : Except String Agent))
        ⟨some ⟨"gemini-2.5-flash", "X"⟩, some "X",
          some [⟨Role.user, "q"⟩, ⟨Role.assistant, "a"⟩]⟩).1).messages = some []) :=
  ⟨rfl, by decide, rfl,
    C2_credential_change_resets _ "X" "Y" _ _ rfl (by decide) rfl⟩

/-- C9: when rebuild is attempted and construction fails, the script halts
with the descriptive error and the session state is returned untouched:
the stored transcript is not cleared and the recorded credential is not
updated. -/
theorem C9_build_failure_atomic (s : AppState) (k e : String)
    (construct : String → Except String Agent)
    (prompt : Option String) (upload : Option UploadedFile)
    (invoke : List ModelMsg → Except String (Option (List String)))
    (hk : k ≠ "") (hbuild : s.agent = none ∨ s.lastKey ≠ some k)
    (herr : construct k = Except.error e) :
    runScript (some k) construct prompt upload invoke s
      = (s, Outcome.halted (buildErrMsg e)) := by
  have hEnsure : ensureAgent k construct s = (s, some (buildErrMsg e)) := by
    rw [ensureAgent, if_pos hbuild, herr]
  simp only [runScript, if_neg hk, hEnsure]

/-- C9 witness: a session with no agent and an existing transcript, rerun
with a credential the backend rejects. -/
theorem C9_build_failure_atomic_witness :
    (("Y" : String) ≠ "") ∧
    ((⟨none, some "X", some [⟨Role.user, "q"⟩, ⟨Role.assistant, "a"⟩]⟩ : AppState).agent
        = none ∨
      (⟨none, some "X", some [⟨Role.user, "q"⟩, ⟨Role.assistant, "a"⟩]⟩ : AppState).lastKey
        ≠ some "Y") ∧
    ((fun _ => Except.error "bad key" : String → Except String Agent) "Y"
      = Except.error "bad key") ∧
    runScript (some "Y") (fun _ => Except.error "bad key") none none
        (fun _ => Except.error "no call")
        ⟨none, some "X", some [⟨Role.user, "q"⟩, ⟨Role.assistant, "a"⟩]⟩
      = (⟨none, some "X", some [⟨Role.user, "q"⟩, ⟨Role.assistant, "a"⟩]⟩,
          Outcome.halted (buildErrMsg "bad key")) :=
  ⟨by decide, Or.inl rfl, rfl,
    C9_build_failure_atomic _ "Y" "bad key" _ none none _
      (by decide) (Or.inl rfl) rfl⟩

/-- C4: when invocation raises with description d during a turn, the turn
still completes: the script finishes (no halt), the appended assistant entry
is the string "An error occurred: " followed by d, and the transcript grows
by exactly two entries (the user entry plus the assistant entry). -/
theorem C4_invocation_error_completes_turn (ag : Agent) (m : List Entry)
    (k p d : String) (construct : String → Except String Agent)
    (upload : Option UploadedFile)
    (invoke : List ModelMsg → Except String (Option (List String)))
    (hk : k ≠ "") (hp : p ≠ "")
    (hinv : invoke (turnMessages p upload m) = Except.error d) :
    runScript (some k) construct (some p) upload invoke ⟨some ag, some k, some m⟩
      = (⟨some ag, some k,
          some (m ++ [⟨Role.user, p⟩, ⟨Role.assistant, "An error occurred: " ++ d⟩])⟩,
        Outcome.finished) ∧
    (m ++ [(⟨Role.user, p⟩ : Entry),
        ⟨Role.assistant, "An error occurred: " ++ d⟩]).length
      = m.length + 2 := by
  have hEnsure : ensureAgent k construct ⟨some ag, some k, some m⟩
      = (⟨some ag, some k, some m⟩, none) := by
    rw [ensureAgent, if_neg]
    simp
  have hTurn : runTurn p upload invoke m
      = m ++ [⟨Role.user, p⟩, ⟨Role.assistant, "An error occurred: " ++ d⟩] := by
    rw [runTurn, turnAnswer, hinv, List.append_assoc]
    rfl
  constructor
  · simp only [runScript, if_neg hk, hEnsure, initMessages, if_neg hp]
    rw [show ((⟨some ag, some k, some m⟩ : AppState).messages.getD []) = m from rfl,
      hTurn]
  · simp

/-- C4 witness: a simulated "network timeout" failure on the first turn of a
session keyed to credential X. -/
theorem C4_invocation_error_completes_turn_witness :
    (("X" : String) ≠ "") ∧
    (("Hi" : String) ≠ "") ∧
    ((fun _ => Except.error "network timeout" :
        List ModelMsg → Except String (Option (List String)))
      (turnMessages "Hi" none []) = Except.error "network timeout") ∧
    (runScript (some "X")
        (fun key => (Except.ok ⟨"gemini-2.5-flash", key⟩ : Except String Agent))
        (some "Hi") none (fun _ => Except.error "network timeout")
        ⟨some ⟨"gemini-2.5-flash", "X"⟩, some "X", some []⟩
      = (⟨some ⟨"gemini-2.5-flash", "X"⟩, some "X",
          some [⟨Role.user, "Hi"⟩,
            ⟨Role.assistant, "An error occurred: network timeout"⟩]⟩,
        Outcome.finished) ∧
     ([(⟨Role.user, "Hi"⟩ : Entry),
        ⟨Role.assistant, "An error occurred: network timeout"⟩]).length = 2) :=
  ⟨by decide, by decide, rfl,
    C4_invocation_error_completes_turn ⟨"gemini-2.5-flash", "X"⟩ [] "X" "Hi"
      "network timeout" _ none _ (by decide) (by decide) rfl⟩

/-- C5 counterexample: the spec names the fallback text
"could not generate a response", but on an empty response list the code
produces a different string ("I'm sorry, I couldn't generate a response."). -/
theorem C5_counterexample :
    extractAnswer (some []) ≠ "could not generate a response" := by
  decide

/-- C5 (amended): for every successful invocation the assistant text is the
content of the last message of the response list; when the response has no
messages (or no "messages" key) it is the fixed fallback string
"I'm sorry, I couldn't generate a response.". -/
theorem C5_extract_answer (ms : List String) (c : String) :
    extractAnswer (some (ms ++ [c])) = c ∧
    extractAnswer (some []) = "I'm sorry, I couldn't generate a response." ∧
    extractAnswer none = "I'm sorry, I couldn't generate a response." := by
  refine ⟨?_, rfl, rfl⟩
  simp [extractAnswer, List.getLast?_concat]

/-- C6: with an absent or empty credential the script halts at the gate with
the instruction to supply a key, and the session state — in particular any
agent or transcript slot — is exactly as it was: nothing is created. -/
theorem C6_credential_gate (construct : String → Except String Agent)
    (prompt : Option String) (upload : Option UploadedFile)
    (invoke : List ModelMsg → Except String (Option (List String)))
    (s : AppState) :
    runScript none construct prompt upload invoke s = (s, Outcome.halted gateMsg) ∧
    runScript (some "") construct prompt upload invoke s = (s, Outcome.halted gateMsg) := by
  constructor <;> simp [runScript]

/-- C7: translation preserves length, order, the role sequence, and the text
of every entry (assistant entries become assistant messages with their text,
user entries become user messages with their text). -/
theorem C7_translate_shape (t : List Entry) (p : String) (durl : Option String) :
    (translate t p durl).length = t.length ∧
    (translate t p durl).map ModelMsg.role = t.map Entry.role ∧
    (translate t p durl).map ModelMsg.text = t.map Entry.content := by
  refine ⟨by simp [translate], ?_, ?_⟩
  · rw [translate, List.map_map]
    congr 1
    funext e
    exact translateEntry_role p durl e
  · rw [translate, List.map_map]
    congr 1
    funext e
    exact translateEntry_text p durl e

/-- C8: for every provided file the encoder deterministically produces the
single string `data:<mime>;base64,<base64 of the bytes>`, the MIME type
being the one guessed from the filename; in particular a filename whose
extension is "jpg" yields MIME type image/jpeg. -/
theorem C8_image_encoder (name : String) (bytes : List Nat) :
    encodeImage (some ⟨name, bytes⟩)
      = some ("data:" ++ mimeStr (guessType name) ++ ";base64,"
          ++ base64Encode bytes) ∧
    (extOf name = "jpg" → guessType name = some "image/jpeg") := by
  constructor
  · rfl
  · intro hjpg
    simp [guessType, hjpg]

/-- C8 witness: the encoder evaluated on the file leaf.jpg with bytes
[255, 216, 255], the jpg-extension implication discharged there. -/
theorem C8_image_encoder_witness :
    (encodeImage (some ⟨"leaf.jpg", [255, 216, 255]⟩)
      = some ("data:" ++ mimeStr (guessType "leaf.jpg") ++ ";base64,"
          ++ base64Encode [255, 216, 255]) ∧
     (extOf "leaf.jpg" = "jpg" → guessType "leaf.jpg" = some "image/jpeg")) ∧
    guessType "leaf.jpg" = some "image/jpeg" :=
  ⟨C8_image_encoder "leaf.jpg" [255, 216, 255],
    (C8_image_encoder "leaf.jpg" [255, 216, 255]).2 (by decide)⟩

end HappyTree
